import Mathlib

/-!
# TicketVault — shallow embedding and verification

Shallow embedding of the `TicketVault` Solidity contract
(`src/frontend/stubs/asyncStorage.ts`, embedded contract lines 14–196).

Modelling choices:
* `address` is modelled as `Nat`, with `0` standing for the zero address.
* `euint32` / `ebool` handles are modelled as a plaintext value paired with a
  fresh handle tag drawn from a per-state counter (`handleCtr`): the external
  FHE platform is mocked by deterministic fake handles, matching the registry
  spec's gateway abstraction.  `FHE.fromExternal` is modelled as minting a
  fresh handle for the submitted value (proof verification belongs to the
  external platform, not to the contract code being verified);
  `FHE.asEbool b` mints a fresh handle whose plaintext is `b`.
  The platform-side ACL effects of `FHE.allow`/`FHE.allowThis` live outside
  the contract's storage and are not part of the state.
* Solidity mappings are total functions returning the zero value on
  never-written keys (`_tickets : Nat → Ticket` with the all-defaults ticket,
  `_ownerTickets : Nat → List Nat` with `[]`).
* `require(cond, msg)` is an early `Except.error`; a reverted call leaves the
  state unchanged (`execOp` keeps the pre-state on error).  Revert messages
  are mapped to the spec's error taxonomy: "Ticket does not exist" ↦
  `notFound`, "Not ticket owner" ↦ `notAuthorized`, "Invalid new owner" and
  "Cannot transfer to self" ↦ `invalidInput`.
-/

/-- Mock handle to an encrypted 32-bit integer (`euint32`): plaintext value
plus the tag under which the gateway registered it. -/
structure EUint32 where
  val : Nat
  tag : Nat
deriving DecidableEq, Repr

/-- Mock handle to an encrypted boolean (`ebool`). -/
structure EBool where
  val : Bool
  tag : Nat
deriving DecidableEq, Repr

/-- The `Ticket` struct of the contract.  The Solidity field `exists` is a
Lean keyword, hence `exists_`. -/
structure Ticket where
  eventName : String
  venue : String
  date : String
  encryptedSeatNumber : EUint32
  isLocked : EBool
  owner : Nat
  exists_ : Bool
deriving DecidableEq, Repr

/-- Zero value of `Ticket`: what `_tickets[id]` reads as before any write. -/
def emptyTicket : Ticket :=
  { eventName := "", venue := "", date := ""
    encryptedSeatNumber := ⟨0, 0⟩, isLocked := ⟨false, 0⟩
    owner := 0, exists_ := false }

/-- Contract storage plus the mock gateway's handle counter. -/
structure VaultState where
  tickets : Nat → Ticket
  ticketCount : Nat
  ownerTickets : Nat → List Nat
  handleCtr : Nat

/-- Freshly deployed contract: empty mappings, zero count. -/
def VaultState.init : VaultState :=
  { tickets := fun _ => emptyTicket
    ticketCount := 0
    ownerTickets := fun _ => []
    handleCtr := 0 }

/-- The spec's error taxonomy for the contract's revert reasons. -/
inductive VaultErr where
  | notFound
  | notAuthorized
  | invalidInput
deriving DecidableEq, Repr

/-- `getTicketCount()`. -/
def getTicketCount (s : VaultState) : Nat :=
  s.ticketCount

/-- `getOwnerTickets(owner)`. -/
def getOwnerTickets (s : VaultState) (owner : Nat) : List Nat :=
  s.ownerTickets owner

/-- `getTicketMetadata(ticketId)`: reads the struct fields of
`_tickets[ticketId]` with no existence check (a view; no state change). -/
def getTicketMetadata (s : VaultState) (ticketId : Nat) :
    String × String × String × Nat × Bool :=
  let ticket := s.tickets ticketId
  (ticket.eventName, ticket.venue, ticket.date, ticket.owner, ticket.exists_)

/-- `getEncryptedSeatNumber(ticketId)`: requires existence, then ownership
by the caller (`msg.sender`); a view, so no state change on any path. -/
def getEncryptedSeatNumber (s : VaultState) (caller ticketId : Nat) :
    Except VaultErr EUint32 :=
  if (s.tickets ticketId).exists_ = true then
    if (s.tickets ticketId).owner = caller then
      .ok (s.tickets ticketId).encryptedSeatNumber
    else .error .notAuthorized
  else .error .notFound

/-- `getEncryptedLockStatus(ticketId)`: same guards, returns the lock
handle. -/
def getEncryptedLockStatus (s : VaultState) (caller ticketId : Nat) :
    Except VaultErr EBool :=
  if (s.tickets ticketId).exists_ = true then
    if (s.tickets ticketId).owner = caller then
      .ok (s.tickets ticketId).isLocked
    else .error .notAuthorized
  else .error .notFound

/-- `createTicket(eventName, venue, date, encryptedSeat, seatProof)`.
Mirrors the contract body: assign `ticketId := _ticketCount`, increment the
count, ingest the external seat ciphertext (mocked as a fresh handle holding
`encryptedSeat % 2^32`), materialize the lock handle from plaintext `true`,
store the struct, and push `ticketId` onto the caller's owner list.  The
contract performs no validation of the string arguments.  Returns the new
state and the returned `ticketId`. -/
def createTicket (s : VaultState) (caller : Nat)
    (eventName venue date : String) (encryptedSeat : Nat) :
    VaultState × Nat :=
  let ticketId := s.ticketCount
  let seatNumber : EUint32 := ⟨encryptedSeat % 2 ^ 32, s.handleCtr⟩
  let locked : EBool := ⟨true, s.handleCtr + 1⟩
  let t : Ticket :=
    { eventName := eventName, venue := venue, date := date
      encryptedSeatNumber := seatNumber, isLocked := locked
      owner := caller, exists_ := true }
  ({ tickets := fun j => if j = ticketId then t else s.tickets j
     ticketCount := s.ticketCount + 1
     ownerTickets := fun p =>
       if p = caller then s.ownerTickets caller ++ [ticketId]
       else s.ownerTickets p
     handleCtr := s.handleCtr + 2 }, ticketId)

/-- `unlockTicket(ticketId)`: requires existence and ownership, then stores a
freshly materialized `false` handle in `isLocked`. -/
def unlockTicket (s : VaultState) (caller ticketId : Nat) :
    Except VaultErr VaultState :=
  if (s.tickets ticketId).exists_ = true then
    if (s.tickets ticketId).owner = caller then
      let unlocked : EBool := ⟨false, s.handleCtr⟩
      .ok { s with
        tickets := fun j =>
          if j = ticketId then { s.tickets ticketId with isLocked := unlocked }
          else s.tickets j
        handleCtr := s.handleCtr + 1 }
    else .error .notAuthorized
  else .error .notFound

/-- `lockTicket(ticketId)`: requires existence and ownership, then stores a
freshly materialized `true` handle in `isLocked`. -/
def lockTicket (s : VaultState) (caller ticketId : Nat) :
    Except VaultErr VaultState :=
  if (s.tickets ticketId).exists_ = true then
    if (s.tickets ticketId).owner = caller then
      let locked : EBool := ⟨true, s.handleCtr⟩
      .ok { s with
        tickets := fun j =>
          if j = ticketId then { s.tickets ticketId with isLocked := locked }
          else s.tickets j
        handleCtr := s.handleCtr + 1 }
    else .error .notAuthorized
  else .error .notFound

/-- The swap-with-last-and-pop removal loop of `transferTicket`: find the
first index holding `ticketId`, overwrite it with the array's last element,
and pop the last element; no change when `ticketId` is absent. -/
def swapRemove (l : List Nat) (ticketId : Nat) : List Nat :=
  if ticketId ∈ l then (l.set (l.indexOf ticketId) (l.getLast?.getD 0)).dropLast
  else l

/-- `transferTicket(ticketId, newOwner)`: requires existence, ownership,
`newOwner != address(0)` and `newOwner != msg.sender`; then updates the
struct's owner, removes `ticketId` from the previous owner's list by
swap-and-pop, and pushes it onto the new owner's list. -/
def transferTicket (s : VaultState) (caller ticketId newOwner : Nat) :
    Except VaultErr VaultState :=
  if (s.tickets ticketId).exists_ = true then
    if (s.tickets ticketId).owner = caller then
      if newOwner = 0 then .error .invalidInput
      else if newOwner = caller then .error .invalidInput
      else
        let previousOwner := (s.tickets ticketId).owner
        .ok { s with
          tickets := fun j =>
            if j = ticketId then { s.tickets ticketId with owner := newOwner }
            else s.tickets j
          ownerTickets := fun p =>
            if p = newOwner then
              (if p = previousOwner then swapRemove (s.ownerTickets p) ticketId
               else s.ownerTickets p) ++ [ticketId]
            else if p = previousOwner then swapRemove (s.ownerTickets p) ticketId
            else s.ownerTickets p }
    else .error .notAuthorized
  else .error .notFound

/-- The contract's state-mutating entry points, for building call
sequences.  The view functions never change state and so need no
constructor here. -/
inductive Op where
  | create (caller : Nat) (eventName venue date : String) (encryptedSeat : Nat)
  | lock (caller ticketId : Nat)
  | unlock (caller ticketId : Nat)
  | transfer (caller ticketId newOwner : Nat)

/-- Execute one call against the state; a reverted call leaves the state
unchanged. -/
def execOp (s : VaultState) : Op → VaultState
  | .create caller e v d seat => (createTicket s caller e v d seat).1
  | .lock caller ticketId =>
    match lockTicket s caller ticketId with
    | .ok s' => s'
    | .error _ => s
  | .unlock caller ticketId =>
    match unlockTicket s caller ticketId with
    | .ok s' => s'
    | .error _ => s
  | .transfer caller ticketId newOwner =>
    match transferTicket s caller ticketId newOwner with
    | .ok s' => s'
    | .error _ => s

/-- Run a call sequence from the freshly deployed contract. -/
def runOps (ops : List Op) : VaultState :=
  ops.foldl execOp VaultState.init

/-- A state the contract can actually be in. -/
def Reachable (s : VaultState) : Prop :=
  ∃ ops : List Op, runOps ops = s

/-- The registry invariant: (1) the ownership index lists exactly the
existing tickets whose `owner` field matches, (2) each owner list is
duplicate-free, and (3) storage slots at or beyond `_ticketCount` still hold
the zero value. -/
def VaultInv (s : VaultState) : Prop :=
  (∀ P i, i ∈ s.ownerTickets P ↔
      ((s.tickets i).exists_ = true ∧ (s.tickets i).owner = P)) ∧
  (∀ P, (s.ownerTickets P).Nodup) ∧
  (∀ i, s.ticketCount ≤ i → s.tickets i = emptyTicket)

/-- Argument bundle for one `createTicket` call. -/
structure CreateArgs where
  caller : Nat
  eventName : String
  venue : String
  date : String
  encryptedSeat : Nat

/-- Run a batch of `createTicket` calls, collecting the returned ids in call
order. -/
def runCreates : VaultState → List CreateArgs → VaultState × List Nat
  | s, [] => (s, [])
  | s, a :: rest =>
    let p := createTicket s a.caller a.eventName a.venue a.date a.encryptedSeat
    let q := runCreates p.1 rest
    (q.1, p.2 :: q.2)

/-! ## Helper lemmas about the swap-and-pop removal -/

theorem swapRemove_of_not_mem {l : List Nat} {ticketId : Nat}
    (h : ticketId ∉ l) : swapRemove l ticketId = l := by
  simp [swapRemove, h]

theorem swapRemove_cons_of_ne {x ticketId : Nat} {xs : List Nat}
    (hx : x ≠ ticketId) (h : ticketId ∈ xs) :
    swapRemove (x :: xs) ticketId = x :: swapRemove xs ticketId := by
  obtain ⟨y, ys, rfl⟩ : ∃ y ys, xs = y :: ys := by
    cases xs with
    | nil => exact absurd h (List.not_mem_nil ticketId)
    | cons y ys => exact ⟨y, ys, rfl⟩
  unfold swapRemove
  rw [if_pos (List.mem_cons_of_mem x h), if_pos h]
  rw [List.indexOf_cons_ne _ hx]
  rw [Nat.succ_eq_add_one, List.set_cons_succ]
  rw [List.getLast?_cons_cons]
  rw [List.dropLast_cons_of_ne_nil
    (fun hc => by simpa using congrArg List.length hc)]

theorem swapRemove_perm (ticketId : Nat) (l : List Nat) (h : ticketId ∈ l) :
    (swapRemove l ticketId).Perm (l.erase ticketId) := by
  induction l with
  | nil => exact absurd h (List.not_mem_nil ticketId)
  | cons x xs ih =>
    by_cases hx : x = ticketId
    · subst hx
      rw [List.erase_cons_head]
      rcases xs.eq_nil_or_concat with rfl | ⟨ys, a, rfl⟩
      · simp [swapRemove]
      · simp only [List.concat_eq_append] at h ⊢
        have hlast : (x :: (ys ++ [a])).getLast? = some a := by
          rw [← List.cons_append]
          exact List.getLast?_concat _
        unfold swapRemove
        rw [if_pos h, hlast, List.indexOf_cons_self, List.set_cons_zero]
        simp only [Option.getD_some]
        rw [← List.cons_append, List.dropLast_concat]
        exact (List.perm_append_singleton a ys).symm
    · have htid : ticketId ∈ xs :=
        (List.mem_cons.mp h).resolve_left (fun e => hx e.symm)
      rw [swapRemove_cons_of_ne hx htid]
      rw [List.erase_cons_tail (by simpa using hx)]
      exact (ih htid).cons x

theorem mem_swapRemove_iff {l : List Nat} {ticketId x : Nat}
    (hnd : l.Nodup) (h : ticketId ∈ l) :
    x ∈ swapRemove l ticketId ↔ x ≠ ticketId ∧ x ∈ l := by
  rw [(swapRemove_perm ticketId l h).mem_iff]
  exact hnd.mem_erase_iff

theorem nodup_swapRemove {l : List Nat} {ticketId : Nat}
    (hnd : l.Nodup) (h : ticketId ∈ l) :
    (swapRemove l ticketId).Nodup := by
  rw [(swapRemove_perm ticketId l h).nodup_iff]
  exact hnd.erase ticketId

/-! ## Success-shape lemmas for the mutating operations -/

theorem lockTicket_ok {s : VaultState} {caller ticketId : Nat}
    (hex : (s.tickets ticketId).exists_ = true)
    (hown : (s.tickets ticketId).owner = caller) :
    lockTicket s caller ticketId = .ok { s with
      tickets := fun j =>
        if j = ticketId then
          { s.tickets ticketId with isLocked := ⟨true, s.handleCtr⟩ }
        else s.tickets j
      handleCtr := s.handleCtr + 1 } := by
  simp [lockTicket, hex, hown]

theorem unlockTicket_ok {s : VaultState} {caller ticketId : Nat}
    (hex : (s.tickets ticketId).exists_ = true)
    (hown : (s.tickets ticketId).owner = caller) :
    unlockTicket s caller ticketId = .ok { s with
      tickets := fun j =>
        if j = ticketId then
          { s.tickets ticketId with isLocked := ⟨false, s.handleCtr⟩ }
        else s.tickets j
      handleCtr := s.handleCtr + 1 } := by
  simp [unlockTicket, hex, hown]

theorem lockTicket_ok_elim {s s' : VaultState} {caller ticketId : Nat}
    (h : lockTicket s caller ticketId = .ok s') :
    (s.tickets ticketId).exists_ = true ∧
    (s.tickets ticketId).owner = caller ∧
    s' = { s with
      tickets := fun j =>
        if j = ticketId then
          { s.tickets ticketId with isLocked := ⟨true, s.handleCtr⟩ }
        else s.tickets j
      handleCtr := s.handleCtr + 1 } := by
  by_cases h1 : (s.tickets ticketId).exists_ = true
  · by_cases h2 : (s.tickets ticketId).owner = caller
    · rw [lockTicket_ok h1 h2] at h
      injection h with h
      exact ⟨h1, h2, h.symm⟩
    · simp [lockTicket, h1, h2] at h
  · simp [lockTicket, h1] at h

theorem unlockTicket_ok_elim {s s' : VaultState} {caller ticketId : Nat}
    (h : unlockTicket s caller ticketId = .ok s') :
    (s.tickets ticketId).exists_ = true ∧
    (s.tickets ticketId).owner = caller ∧
    s' = { s with
      tickets := fun j =>
        if j = ticketId then
          { s.tickets ticketId with isLocked := ⟨false, s.handleCtr⟩ }
        else s.tickets j
      handleCtr := s.handleCtr + 1 } := by
  by_cases h1 : (s.tickets ticketId).exists_ = true
  · by_cases h2 : (s.tickets ticketId).owner = caller
    · rw [unlockTicket_ok h1 h2] at h
      injection h with h
      exact ⟨h1, h2, h.symm⟩
    · simp [unlockTicket, h1, h2] at h
  · simp [unlockTicket, h1] at h

theorem transferTicket_ok {s : VaultState} {caller ticketId newOwner : Nat}
    (hex : (s.tickets ticketId).exists_ = true)
    (hown : (s.tickets ticketId).owner = caller)
    (hz : newOwner ≠ 0) (hself : newOwner ≠ caller) :
    transferTicket s caller ticketId newOwner = .ok { s with
      tickets := fun j =>
        if j = ticketId then { s.tickets ticketId with owner := newOwner }
        else s.tickets j
      ownerTickets := fun p =>
        if p = newOwner then
          (if p = (s.tickets ticketId).owner then
            swapRemove (s.ownerTickets p) ticketId
           else s.ownerTickets p) ++ [ticketId]
        else if p = (s.tickets ticketId).owner then
          swapRemove (s.ownerTickets p) ticketId
        else s.ownerTickets p } := by
  simp [transferTicket, hex, hown, hz, hself]

theorem transferTicket_ok_elim {s s' : VaultState}
    {caller ticketId newOwner : Nat}
    (h : transferTicket s caller ticketId newOwner = .ok s') :
    (s.tickets ticketId).exists_ = true ∧
    (s.tickets ticketId).owner = caller ∧
    newOwner ≠ 0 ∧ newOwner ≠ caller ∧
    s' = { s with
      tickets := fun j =>
        if j = ticketId then { s.tickets ticketId with owner := newOwner }
        else s.tickets j
      ownerTickets := fun p =>
        if p = newOwner then
          (if p = (s.tickets ticketId).owner then
            swapRemove (s.ownerTickets p) ticketId
           else s.ownerTickets p) ++ [ticketId]
        else if p = (s.tickets ticketId).owner then
          swapRemove (s.ownerTickets p) ticketId
        else s.ownerTickets p } := by
  by_cases h1 : (s.tickets ticketId).exists_ = true
  · by_cases h2 : (s.tickets ticketId).owner = caller
    · by_cases h3 : newOwner = 0
      · simp [transferTicket, h1, h2, h3] at h
      · by_cases h4 : newOwner = caller
        · simp [transferTicket, h1, h2, h3, h4] at h
        · rw [transferTicket_ok h1 h2 h3 h4] at h
          injection h with h
          exact ⟨h1, h2, h3, h4, h.symm⟩
    · simp [transferTicket, h1, h2] at h
  · simp [transferTicket, h1] at h

/-! ## The registry invariant is established and preserved -/

theorem vaultInv_init : VaultInv VaultState.init := by
  refine ⟨?_, ?_, ?_⟩
  · intro P i
    simp [VaultState.init, emptyTicket]
  · intro P
    simp [VaultState.init]
  · intro i _
    rfl

theorem vaultInv_createTicket {s : VaultState} (hs : VaultInv s)
    (caller : Nat) (e v d : String) (seat : Nat) :
    VaultInv (createTicket s caller e v d seat).1 := by
  obtain ⟨h1, h2, h3⟩ := hs
  have hfresh : ∀ P, s.ticketCount ∉ s.ownerTickets P := by
    intro P hmem
    have hx := (h1 P s.ticketCount).mp hmem
    rw [h3 s.ticketCount (le_refl _)] at hx
    simp [emptyTicket] at hx
  have hlist : ∀ P, (createTicket s caller e v d seat).1.ownerTickets P
      = if P = caller then s.ownerTickets caller ++ [s.ticketCount]
        else s.ownerTickets P := fun _ => rfl
  have htick : ∀ i, (createTicket s caller e v d seat).1.tickets i
      = if i = s.ticketCount then
          { eventName := e, venue := v, date := d
            encryptedSeatNumber := ⟨seat % 2 ^ 32, s.handleCtr⟩
            isLocked := ⟨true, s.handleCtr + 1⟩
            owner := caller, exists_ := true }
        else s.tickets i := fun _ => rfl
  have hcount : (createTicket s caller e v d seat).1.ticketCount
      = s.ticketCount + 1 := rfl
  refine ⟨?_, ?_, ?_⟩
  · intro P i
    rw [hlist, htick]
    by_cases hi : i = s.ticketCount
    · subst hi
      by_cases hP : P = caller
      · simp [hP]
      · simp [hP, hfresh P, Ne.symm hP]
    · by_cases hP : P = caller
      · rw [hP, if_pos rfl, if_neg hi, List.mem_append, List.mem_singleton,
          or_iff_left hi]
        exact h1 caller i
      · rw [if_neg hP, if_neg hi]
        exact h1 P i
  · intro P
    rw [hlist]
    by_cases hP : P = caller
    · rw [if_pos hP]
      refine List.nodup_append.mpr ⟨h2 caller, List.nodup_singleton _, ?_⟩
      intro x hx hx2
      rw [List.mem_singleton] at hx2
      subst hx2
      exact hfresh caller hx
    · rw [if_neg hP]
      exact h2 P
  · intro i hle
    rw [hcount] at hle
    rw [htick, if_neg (by omega : i ≠ s.ticketCount)]
    exact h3 i (by omega)

theorem vaultInv_lockTicket {s s' : VaultState} {caller ticketId : Nat}
    (hs : VaultInv s) (h : lockTicket s caller ticketId = .ok s') :
    VaultInv s' := by
  obtain ⟨h1, h2, h3⟩ := hs
  obtain ⟨hex, hown, rfl⟩ := lockTicket_ok_elim h
  have htlt : ¬ s.ticketCount ≤ ticketId := by
    intro hc
    rw [h3 ticketId hc] at hex
    simp [emptyTicket] at hex
  refine ⟨?_, ?_, ?_⟩
  · intro P i
    by_cases hi : i = ticketId
    · subst hi
      simpa using h1 P i
    · simpa [hi] using h1 P i
  · intro P
    simpa using h2 P
  · intro i hle
    simp only at hle ⊢
    have hi : i ≠ ticketId := by omega
    simp only [if_neg hi]
    exact h3 i hle

theorem vaultInv_unlockTicket {s s' : VaultState} {caller ticketId : Nat}
    (hs : VaultInv s) (h : unlockTicket s caller ticketId = .ok s') :
    VaultInv s' := by
  obtain ⟨h1, h2, h3⟩ := hs
  obtain ⟨hex, hown, rfl⟩ := unlockTicket_ok_elim h
  have htlt : ¬ s.ticketCount ≤ ticketId := by
    intro hc
    rw [h3 ticketId hc] at hex
    simp [emptyTicket] at hex
  refine ⟨?_, ?_, ?_⟩
  · intro P i
    by_cases hi : i = ticketId
    · subst hi
      simpa using h1 P i
    · simpa [hi] using h1 P i
  · intro P
    simpa using h2 P
  · intro i hle
    simp only at hle ⊢
    have hi : i ≠ ticketId := by omega
    simp only [if_neg hi]
    exact h3 i hle

theorem vaultInv_transferTicket {s s' : VaultState}
    {caller ticketId newOwner : Nat} (hs : VaultInv s)
    (h : transferTicket s caller ticketId newOwner = .ok s') :
    VaultInv s' := by
  obtain ⟨h1, h2, h3⟩ := hs
  obtain ⟨hex, hown, hz, hself, rfl⟩ := transferTicket_ok_elim h
  have hmem : ticketId ∈ s.ownerTickets caller :=
    (h1 caller ticketId).mpr ⟨hex, hown⟩
  have hnotmem : ticketId ∉ s.ownerTickets newOwner := by
    intro hm
    have h5 := ((h1 newOwner ticketId).mp hm).2
    rw [hown] at h5
    exact hself h5.symm
  have htlt : ¬ s.ticketCount ≤ ticketId := by
    intro hc
    rw [h3 ticketId hc] at hex
    simp [emptyTicket] at hex
  have hmemL : ∀ x, x ∈ swapRemove (s.ownerTickets caller) ticketId ↔
      x ≠ ticketId ∧ x ∈ s.ownerTickets caller :=
    fun _ => mem_swapRemove_iff (h2 caller) hmem
  refine ⟨?_, ?_, ?_⟩
  · intro P i
    simp only [hown]
    by_cases hP1 : P = newOwner
    · rw [hP1, if_pos rfl, if_neg hself, List.mem_append, List.mem_singleton]
      by_cases hi : i = ticketId
      · subst hi
        simp [hex]
      · rw [or_iff_left hi, if_neg hi]
        exact h1 newOwner i
    · by_cases hP2 : P = caller
      · rw [hP2, if_neg (fun hc => hself hc.symm)]
        rw [if_pos rfl, hmemL i]
        by_cases hi : i = ticketId
        · subst hi
          simp [hex, hself]
        · rw [if_neg hi]
          constructor
          · intro hx
            exact (h1 caller i).mp hx.2
          · intro hx
            exact ⟨hi, (h1 caller i).mpr hx⟩
      · rw [if_neg hP1, if_neg hP2]
        by_cases hi : i = ticketId
        · subst hi
          constructor
          · intro hx
            have h5 := ((h1 P i).mp hx).2
            rw [hown] at h5
            exact absurd h5.symm hP2
          · intro hx
            rw [if_pos rfl] at hx
            exact absurd hx.2.symm hP1
        · rw [if_neg hi]
          exact h1 P i
  · intro P
    simp only [hown]
    by_cases hP1 : P = newOwner
    · rw [hP1, if_pos rfl, if_neg hself]
      refine List.nodup_append.mpr ⟨h2 newOwner, List.nodup_singleton _, ?_⟩
      intro x hx hx2
      rw [List.mem_singleton] at hx2
      subst hx2
      exact hnotmem hx
    · by_cases hP2 : P = caller
      · rw [hP2, if_neg (fun hc => hself hc.symm), if_pos rfl]
        exact nodup_swapRemove (h2 caller) hmem
      · rw [if_neg hP1, if_neg hP2]
        exact h2 P
  · intro i hle
    simp only at hle ⊢
    have hi : i ≠ ticketId := by omega
    rw [if_neg hi]
    exact h3 i hle

theorem vaultInv_execOp {s : VaultState} (hs : VaultInv s) (op : Op) :
    VaultInv (execOp s op) := by
  cases op with
  | create c e v d seat => exact vaultInv_createTicket hs c e v d seat
  | lock c t =>
    cases hl : lockTicket s c t with
    | error e => simpa [execOp, hl] using hs
    | ok s' => simpa [execOp, hl] using vaultInv_lockTicket hs hl
  | unlock c t =>
    cases hl : unlockTicket s c t with
    | error e => simpa [execOp, hl] using hs
    | ok s' => simpa [execOp, hl] using vaultInv_unlockTicket hs hl
  | transfer c t o =>
    cases hl : transferTicket s c t o with
    | error e => simpa [execOp, hl] using hs
    | ok s' => simpa [execOp, hl] using vaultInv_transferTicket hs hl

theorem reachable_vaultInv {s : VaultState} (h : Reachable s) : VaultInv s := by
  obtain ⟨ops, rfl⟩ := h
  have hfold : ∀ (l : List Op) (t : VaultState),
      VaultInv t → VaultInv (l.foldl execOp t) := by
    intro l
    induction l with
    | nil => intro t ht; exact ht
    | cons op rest ih =>
      intro t ht
      exact ih _ (vaultInv_execOp ht op)
  exact hfold ops VaultState.init vaultInv_init

theorem runCreates_spec (args : List CreateArgs) : ∀ s : VaultState,
    (runCreates s args).2 = List.range' s.ticketCount args.length ∧
    (runCreates s args).1.ticketCount = s.ticketCount + args.length := by
  induction args with
  | nil =>
    intro s
    simp [runCreates]
  | cons a rest ih =>
    intro s
    obtain ⟨hi1, hi2⟩ :=
      ih (createTicket s a.caller a.eventName a.venue a.date a.encryptedSeat).1
    simp only [runCreates, List.length_cons]
    constructor
    · rw [hi1, List.range'_succ]
      rfl
    · rw [hi2]
      rw [show (createTicket s a.caller a.eventName a.venue a.date
          a.encryptedSeat).1.ticketCount = s.ticketCount + 1 from rfl]
      omega

/-! ## The claims -/

/-- C1: the claim says `createTicket` rejects empty `eventName`/`venue`/`date`
with `InvalidInput` and leaves the count unchanged, and the repository's own
test suite expects the reverts `"Event name cannot be empty"`, `"Venue cannot
be empty"`, `"Date cannot be empty"`; but the contract body contains no such
`require`: a call with all three strings empty succeeds, returns id 0, bumps
the count to 1 and stores an existing ticket. -/
theorem createTicket_accepts_empty_strings :
    (createTicket VaultState.init 1 "" "" "" 42).2 = 0 ∧
    getTicketCount (createTicket VaultState.init 1 "" "" "" 42).1 = 1 ∧
    ((createTicket VaultState.init 1 "" "" "" 42).1.tickets 0).exists_ = true :=
  ⟨rfl, rfl, rfl⟩

/-- C2: starting from the fresh contract, a sequence of N `createTicket`
calls returns exactly the ids 0, …, N-1 in call order, and the ticket count
equals N afterwards (the count is always the next id to assign). -/
theorem createTicket_sequential_ids (args : List CreateArgs) :
    (runCreates VaultState.init args).2 = List.range args.length ∧
    getTicketCount (runCreates VaultState.init args).1 = args.length := by
  obtain ⟨h1, h2⟩ := runCreates_spec args VaultState.init
  constructor
  · rw [h1, List.range_eq_range']
    rfl
  · rw [getTicketCount, h2]
    rw [show VaultState.init.ticketCount = 0 from rfl]
    omega

/-- C3: in every reachable state, the ownership index `getOwnerTickets P`
contains a ticket id `i` exactly when ticket `i` exists and its `owner`
field is `P`. -/
theorem ownership_index_consistent {s : VaultState} (h : Reachable s)
    (P i : Nat) :
    i ∈ getOwnerTickets s P ↔
      ((s.tickets i).exists_ = true ∧ (s.tickets i).owner = P) :=
  (reachable_vaultInv h).1 P i

theorem ownership_index_consistent_witness :
    0 ∈ getOwnerTickets (runOps [Op.create 1 "Concert" "Arena" "2025-03-15" 42]) 1 ↔
      (((runOps [Op.create 1 "Concert" "Arena" "2025-03-15" 42]).tickets 0).exists_ = true ∧
       ((runOps [Op.create 1 "Concert" "Arena" "2025-03-15" 42]).tickets 0).owner = 1) :=
  ownership_index_consistent
    ⟨[Op.create 1 "Concert" "Arena" "2025-03-15" 42], rfl⟩ 1 0

/-- C7: immediately after any successful `createTicket` call, the new
ticket's lock handle is materialized from plaintext `true` — the ticket
starts locked, whoever the caller is and whatever the inputs are. -/
theorem createTicket_initially_locked (s : VaultState) (caller : Nat)
    (e v d : String) (seat : Nat) :
    (((createTicket s caller e v d seat).1).tickets
        (createTicket s caller e v d seat).2).isLocked.val = true := by
  simp [createTicket]

/-- C10: reading metadata of a never-created id (at or beyond the current
count) does not fail: it returns empty strings, the zero owner, and
`exists = false`.  `getTicketMetadata` is a view, so the state is untouched
by construction. -/
theorem getTicketMetadata_missing_defaults {s : VaultState}
    (h : Reachable s) (ticketId : Nat) (hge : s.ticketCount ≤ ticketId) :
    getTicketMetadata s ticketId = ("", "", "", 0, false) := by
  rw [getTicketMetadata]
  rw [(reachable_vaultInv h).2.2 ticketId hge]
  rfl

theorem getTicketMetadata_missing_defaults_witness :
    getTicketMetadata (runOps []) 999 = ("", "", "", 0, false) :=
  getTicketMetadata_missing_defaults ⟨[], rfl⟩ 999 (by decide)

/-- C4: on an existing ticket, every owner-gated operation called by a
principal other than the current owner fails with `NotAuthorized`; the two
handle reads are views, and the three mutators leave the state unchanged
(`execOp` keeps the pre-state on a revert). -/
theorem nonOwner_operations_notAuthorized (s : VaultState)
    (caller ticketId newOwner : Nat)
    (hex : (s.tickets ticketId).exists_ = true)
    (hne : (s.tickets ticketId).owner ≠ caller) :
    getEncryptedSeatNumber s caller ticketId = .error .notAuthorized ∧
    getEncryptedLockStatus s caller ticketId = .error .notAuthorized ∧
    lockTicket s caller ticketId = .error .notAuthorized ∧
    unlockTicket s caller ticketId = .error .notAuthorized ∧
    transferTicket s caller ticketId newOwner = .error .notAuthorized ∧
    execOp s (.lock caller ticketId) = s ∧
    execOp s (.unlock caller ticketId) = s ∧
    execOp s (.transfer caller ticketId newOwner) = s := by
  refine ⟨?_, ?_, ?_, ?_, ?_, ?_, ?_, ?_⟩ <;>
    simp [getEncryptedSeatNumber, getEncryptedLockStatus, lockTicket,
      unlockTicket, transferTicket, execOp, hex, hne]

theorem nonOwner_operations_notAuthorized_witness :
    ((runOps [Op.create 1 "E" "V" "D" 7]).tickets 0).exists_ = true ∧
    ((runOps [Op.create 1 "E" "V" "D" 7]).tickets 0).owner ≠ 2 ∧
    getEncryptedSeatNumber (runOps [Op.create 1 "E" "V" "D" 7]) 2 0 =
      .error .notAuthorized :=
  ⟨rfl, by decide,
    (nonOwner_operations_notAuthorized (runOps [Op.create 1 "E" "V" "D" 7])
      2 0 3 rfl (by decide)).1⟩

/-- C6 (counterexample): the claim asserts that **every** id-taking operation
fails with `NotFound` on a never-created id; but `getTicketMetadata` has no
existence `require` — on the fresh contract (0 tickets) it returns the
all-default tuple for id 999 instead of failing. -/
theorem getTicketMetadata_missing_no_failure :
    getTicketMetadata VaultState.init 999 = ("", "", "", 0, false) :=
  rfl

/-- C6 (amended): on a never-created id (at or beyond the current count),
the five guarded operations — `getEncryptedSeatNumber`,
`getEncryptedLockStatus`, `lockTicket`, `unlockTicket`, `transferTicket` —
fail with `NotFound` and leave the state unchanged, while `getTicketMetadata`
does not fail: it returns the all-default metadata tuple. -/
theorem missing_ticket_operations_notFound {s : VaultState}
    (h : Reachable s) (caller ticketId newOwner : Nat)
    (hge : s.ticketCount ≤ ticketId) :
    getEncryptedSeatNumber s caller ticketId = .error .notFound ∧
    getEncryptedLockStatus s caller ticketId = .error .notFound ∧
    lockTicket s caller ticketId = .error .notFound ∧
    unlockTicket s caller ticketId = .error .notFound ∧
    transferTicket s caller ticketId newOwner = .error .notFound ∧
    execOp s (.lock caller ticketId) = s ∧
    execOp s (.unlock caller ticketId) = s ∧
    execOp s (.transfer caller ticketId newOwner) = s ∧
    getTicketMetadata s ticketId = ("", "", "", 0, false) := by
  have hempty := (reachable_vaultInv h).2.2 ticketId hge
  have hex : (s.tickets ticketId).exists_ = false := by
    rw [hempty]
    rfl
  refine ⟨?_, ?_, ?_, ?_, ?_, ?_, ?_, ?_, ?_⟩ <;>
    simp [getEncryptedSeatNumber, getEncryptedLockStatus, lockTicket,
      unlockTicket, transferTicket, execOp, getTicketMetadata, hex, hempty,
      emptyTicket]

theorem missing_ticket_operations_notFound_witness :
    lockTicket (runOps []) 1 999 = .error .notFound :=
  (missing_ticket_operations_notFound ⟨[], rfl⟩ 1 999 2 (by decide)).2.2.1

theorem execOp_lock_ok {s s' : VaultState} {caller ticketId : Nat}
    (h : lockTicket s caller ticketId = .ok s') :
    execOp s (.lock caller ticketId) = s' := by
  simp [execOp, h]

theorem execOp_unlock_ok {s s' : VaultState} {caller ticketId : Nat}
    (h : unlockTicket s caller ticketId = .ok s') :
    execOp s (.unlock caller ticketId) = s' := by
  simp [execOp, h]

/-- C5: from any reachable state where A owns a ticket, a successful
`transferTicket` by A to B removes the id from A's owner list, puts it in
B's owner list exactly once, sets the ticket's owner to B, and leaves the
ticket count unchanged. -/
theorem transferTicket_moves_membership {s s' : VaultState}
    (h : Reachable s) (A B ticketId : Nat)
    (hown : (s.tickets ticketId).owner = A)
    (htr : transferTicket s A ticketId B = .ok s') :
    ticketId ∉ getOwnerTickets s' A ∧
    (getOwnerTickets s' B).count ticketId = 1 ∧
    (s'.tickets ticketId).owner = B ∧
    getTicketCount s' = getTicketCount s := by
  obtain ⟨h1, h2, h3⟩ := reachable_vaultInv h
  obtain ⟨hex, hcall, hz, hself, rfl⟩ := transferTicket_ok_elim htr
  have hmem : ticketId ∈ s.ownerTickets A := (h1 A ticketId).mpr ⟨hex, hown⟩
  have hnotmem : ticketId ∉ s.ownerTickets B := by
    intro hm
    have h5 := ((h1 B ticketId).mp hm).2
    rw [hown] at h5
    exact hself h5.symm
  have hAB : ¬ A = B := fun hc => hself hc.symm
  refine ⟨?_, ?_, ?_, rfl⟩
  · simp only [getOwnerTickets, hown, hAB, eq_self_iff_true, if_true,
      if_false]
    rw [mem_swapRemove_iff (h2 A) hmem]
    simp
  · simp only [getOwnerTickets, hown, hself, eq_self_iff_true, if_true,
      if_false]
    rw [List.count_append, List.count_eq_zero.mpr hnotmem,
      List.count_singleton_self]
  · simp

theorem transferTicket_moves_membership_witness :
    ((runOps [Op.create 1 "E" "V" "D" 7]).tickets 0).owner = 1 ∧
    0 ∉ getOwnerTickets (runOps [Op.create 1 "E" "V" "D" 7,
      Op.transfer 1 0 2]) 1 :=
  ⟨rfl, (transferTicket_moves_membership
      ⟨[Op.create 1 "E" "V" "D" 7], rfl⟩ 1 2 0 rfl (by rfl)).1⟩

/-- C8: on an existing ticket, the owner can call `lockTicket` (resp.
`unlockTicket`) twice in a row; both calls succeed, the observable lock
state is `true` (resp. `false`) after each, and in both cases the repeated
call changes no field other than the lock handle itself: other tickets are
untouched and the target's `eventName`, `venue`, `date`, seat handle,
`owner` and `exists` flag, the owner lists and the count are all
preserved. -/
theorem lock_unlock_idempotent (s : VaultState) (caller ticketId : Nat)
    (hex : (s.tickets ticketId).exists_ = true)
    (hown : (s.tickets ticketId).owner = caller) :
    (lockTicket s caller ticketId
        = .ok (execOp s (.lock caller ticketId)) ∧
      lockTicket (execOp s (.lock caller ticketId)) caller ticketId
        = .ok (execOp (execOp s (.lock caller ticketId))
            (.lock caller ticketId)) ∧
      ((execOp s (.lock caller ticketId)).tickets ticketId).isLocked.val
        = true ∧
      ((execOp (execOp s (.lock caller ticketId)) (.lock caller ticketId)).tickets
          ticketId).isLocked.val = true ∧
      (∀ j, j ≠ ticketId →
        (execOp (execOp s (.lock caller ticketId)) (.lock caller ticketId)).tickets j
          = (execOp s (.lock caller ticketId)).tickets j) ∧
      ((execOp (execOp s (.lock caller ticketId)) (.lock caller ticketId)).tickets
          ticketId).eventName
        = ((execOp s (.lock caller ticketId)).tickets ticketId).eventName ∧
      ((execOp (execOp s (.lock caller ticketId)) (.lock caller ticketId)).tickets
          ticketId).venue
        = ((execOp s (.lock caller ticketId)).tickets ticketId).venue ∧
      ((execOp (execOp s (.lock caller ticketId)) (.lock caller ticketId)).tickets
          ticketId).date
        = ((execOp s (.lock caller ticketId)).tickets ticketId).date ∧
      ((execOp (execOp s (.lock caller ticketId)) (.lock caller ticketId)).tickets
          ticketId).encryptedSeatNumber
        = ((execOp s (.lock caller ticketId)).tickets ticketId).encryptedSeatNumber ∧
      ((execOp (execOp s (.lock caller ticketId)) (.lock caller ticketId)).tickets
          ticketId).owner
        = ((execOp s (.lock caller ticketId)).tickets ticketId).owner ∧
      ((execOp (execOp s (.lock caller ticketId)) (.lock caller ticketId)).tickets
          ticketId).exists_
        = ((execOp s (.lock caller ticketId)).tickets ticketId).exists_ ∧
      (execOp (execOp s (.lock caller ticketId)) (.lock caller ticketId)).ownerTickets
        = (execOp s (.lock caller ticketId)).ownerTickets ∧
      (execOp (execOp s (.lock caller ticketId)) (.lock caller ticketId)).ticketCount
        = (execOp s (.lock caller ticketId)).ticketCount) ∧
    (unlockTicket s caller ticketId
        = .ok (execOp s (.unlock caller ticketId)) ∧
      unlockTicket (execOp s (.unlock caller ticketId)) caller ticketId
        = .ok (execOp (execOp s (.unlock caller ticketId))
            (.unlock caller ticketId)) ∧
      ((execOp s (.unlock caller ticketId)).tickets ticketId).isLocked.val
        = false ∧
      ((execOp (execOp s (.unlock caller ticketId)) (.unlock caller ticketId)).tickets
          ticketId).isLocked.val = false ∧
      (∀ j, j ≠ ticketId →
        (execOp (execOp s (.unlock caller ticketId)) (.unlock caller ticketId)).tickets j
          = (execOp s (.unlock caller ticketId)).tickets j) ∧
      ((execOp (execOp s (.unlock caller ticketId)) (.unlock caller ticketId)).tickets
          ticketId).eventName
        = ((execOp s (.unlock caller ticketId)).tickets ticketId).eventName ∧
      ((execOp (execOp s (.unlock caller ticketId)) (.unlock caller ticketId)).tickets
          ticketId).venue
        = ((execOp s (.unlock caller ticketId)).tickets ticketId).venue ∧
      ((execOp (execOp s (.unlock caller ticketId)) (.unlock caller ticketId)).tickets
          ticketId).date
        = ((execOp s (.unlock caller ticketId)).tickets ticketId).date ∧
      ((execOp (execOp s (.unlock caller ticketId)) (.unlock caller ticketId)).tickets
          ticketId).encryptedSeatNumber
        = ((execOp s (.unlock caller ticketId)).tickets ticketId).encryptedSeatNumber ∧
      ((execOp (execOp s (.unlock caller ticketId)) (.unlock caller ticketId)).tickets
          ticketId).owner
        = ((execOp s (.unlock caller ticketId)).tickets ticketId).owner ∧
      ((execOp (execOp s (.unlock caller ticketId)) (.unlock caller ticketId)).tickets
          ticketId).exists_
        = ((execOp s (.unlock caller ticketId)).tickets ticketId).exists_ ∧
      (execOp (execOp s (.unlock caller ticketId)) (.unlock caller ticketId)).ownerTickets
        = (execOp s (.unlock caller ticketId)).ownerTickets ∧
      (execOp (execOp s (.unlock caller ticketId)) (.unlock caller ticketId)).ticketCount
        = (execOp s (.unlock caller ticketId)).ticketCount) := by
  constructor
  · have h1 := lockTicket_ok hex hown
    have he1 := execOp_lock_ok h1
    have hex1 : ((execOp s (.lock caller ticketId)).tickets ticketId).exists_
        = true := by
      rw [he1]
      simpa using hex
    have hown1 : ((execOp s (.lock caller ticketId)).tickets ticketId).owner
        = caller := by
      rw [he1]
      simpa using hown
    have h2 := lockTicket_ok hex1 hown1
    have he2 := execOp_lock_ok h2
    refine ⟨by rw [he1]; exact h1, by rw [he2]; exact h2, ?_⟩
    refine ⟨by rw [he1]; simp, by rw [he2]; simp,
      fun j hj => by rw [he2]; simp [hj], by rw [he2]; simp,
      by rw [he2]; simp, by rw [he2]; simp, by rw [he2]; simp,
      by rw [he2]; simp, by rw [he2]; simp, by rw [he2], by rw [he2]⟩
  · have h1 := unlockTicket_ok hex hown
    have he1 := execOp_unlock_ok h1
    have hex1 : ((execOp s (.unlock caller ticketId)).tickets ticketId).exists_
        = true := by
      rw [he1]
      simpa using hex
    have hown1 : ((execOp s (.unlock caller ticketId)).tickets ticketId).owner
        = caller := by
      rw [he1]
      simpa using hown
    have h2 := unlockTicket_ok hex1 hown1
    have he2 := execOp_unlock_ok h2
    refine ⟨by rw [he1]; exact h1, by rw [he2]; exact h2, ?_⟩
    refine ⟨by rw [he1]; simp, by rw [he2]; simp,
      fun j hj => by rw [he2]; simp [hj], by rw [he2]; simp,
      by rw [he2]; simp, by rw [he2]; simp, by rw [he2]; simp,
      by rw [he2]; simp, by rw [he2]; simp, by rw [he2], by rw [he2]⟩

theorem lock_unlock_idempotent_witness :
    ((runOps [Op.create 1 "E" "V" "D" 7]).tickets 0).exists_ = true ∧
    lockTicket (runOps [Op.create 1 "E" "V" "D" 7]) 1 0 =
      .ok (execOp (runOps [Op.create 1 "E" "V" "D" 7]) (Op.lock 1 0)) :=
  ⟨rfl, (lock_unlock_idempotent (runOps [Op.create 1 "E" "V" "D" 7])
      1 0 rfl rfl).1.1⟩

/-- C9: once a ticket exists, no contract call changes its `eventName`,
`venue`, `date` or its seat handle; `lockTicket`/`unlockTicket` only replace
the lock handle of the targeted ticket (owner, existence, the owner lists
and the count are untouched); `transferTicket` never touches the lock
handle, existence, or the count (it changes only the owner field and the
ownership index). -/
theorem operations_frame_conditions {s : VaultState} (h : Reachable s)
    (i : Nat) (hex : (s.tickets i).exists_ = true) :
    (∀ op : Op,
      ((execOp s op).tickets i).encryptedSeatNumber
        = (s.tickets i).encryptedSeatNumber ∧
      ((execOp s op).tickets i).eventName = (s.tickets i).eventName ∧
      ((execOp s op).tickets i).venue = (s.tickets i).venue ∧
      ((execOp s op).tickets i).date = (s.tickets i).date) ∧
    (∀ caller ticketId : Nat,
      ((execOp s (.lock caller ticketId)).tickets i).owner
        = (s.tickets i).owner ∧
      ((execOp s (.lock caller ticketId)).tickets i).exists_
        = (s.tickets i).exists_ ∧
      (execOp s (.lock caller ticketId)).ownerTickets = s.ownerTickets ∧
      (execOp s (.lock caller ticketId)).ticketCount = s.ticketCount) ∧
    (∀ caller ticketId : Nat,
      ((execOp s (.unlock caller ticketId)).tickets i).owner
        = (s.tickets i).owner ∧
      ((execOp s (.unlock caller ticketId)).tickets i).exists_
        = (s.tickets i).exists_ ∧
      (execOp s (.unlock caller ticketId)).ownerTickets = s.ownerTickets ∧
      (execOp s (.unlock caller ticketId)).ticketCount = s.ticketCount) ∧
    (∀ caller ticketId newOwner : Nat,
      ((execOp s (.transfer caller ticketId newOwner)).tickets i).isLocked
        = (s.tickets i).isLocked ∧
      ((execOp s (.transfer caller ticketId newOwner)).tickets i).exists_
        = (s.tickets i).exists_ ∧
      (execOp s (.transfer caller ticketId newOwner)).ticketCount
        = s.ticketCount) := by
  have hlt : ¬ s.ticketCount ≤ i := fun hc => by
    rw [(reachable_vaultInv h).2.2 i hc] at hex
    simp [emptyTicket] at hex
  refine ⟨?_, ?_, ?_, ?_⟩
  · intro op
    cases op with
    | create c e v d seat =>
      have hne : ¬ i = s.ticketCount := by omega
      have ht : (createTicket s c e v d seat).1.tickets i = s.tickets i := by
        simp only [createTicket]
        rw [if_neg hne]
      simp [execOp, ht]
    | lock c t =>
      cases hl : lockTicket s c t with
      | error e => simp [execOp, hl]
      | ok s' =>
        obtain ⟨-, -, rfl⟩ := lockTicket_ok_elim hl
        by_cases hit : i = t
        · subst hit
          simp [execOp, hl]
        · simp [execOp, hl, hit]
    | unlock c t =>
      cases hl : unlockTicket s c t with
      | error e => simp [execOp, hl]
      | ok s' =>
        obtain ⟨-, -, rfl⟩ := unlockTicket_ok_elim hl
        by_cases hit : i = t
        · subst hit
          simp [execOp, hl]
        · simp [execOp, hl, hit]
    | transfer c t o =>
      cases hl : transferTicket s c t o with
      | error e => simp [execOp, hl]
      | ok s' =>
        obtain ⟨-, -, -, -, rfl⟩ := transferTicket_ok_elim hl
        by_cases hit : i = t
        · subst hit
          simp [execOp, hl]
        · simp [execOp, hl, hit]
  · intro c t
    cases hl : lockTicket s c t with
    | error e => simp [execOp, hl]
    | ok s' =>
      obtain ⟨-, -, rfl⟩ := lockTicket_ok_elim hl
      by_cases hit : i = t
      · subst hit
        simp [execOp, hl]
      · simp [execOp, hl, hit]
  · intro c t
    cases hl : unlockTicket s c t with
    | error e => simp [execOp, hl]
    | ok s' =>
      obtain ⟨-, -, rfl⟩ := unlockTicket_ok_elim hl
      by_cases hit : i = t
      · subst hit
        simp [execOp, hl]
      · simp [execOp, hl, hit]
  · intro c t o
    cases hl : transferTicket s c t o with
    | error e => simp [execOp, hl]
    | ok s' =>
      obtain ⟨-, -, -, -, rfl⟩ := transferTicket_ok_elim hl
      by_cases hit : i = t
      · subst hit
        simp [execOp, hl]
      · simp [execOp, hl, hit]

theorem operations_frame_conditions_witness :
    ((runOps [Op.create 1 "E" "V" "D" 7]).tickets 0).exists_ = true ∧
    ((execOp (runOps [Op.create 1 "E" "V" "D" 7]) (Op.lock 1 0)).tickets
        0).encryptedSeatNumber
      = ((runOps [Op.create 1 "E" "V" "D" 7]).tickets 0).encryptedSeatNumber :=
  ⟨rfl, ((operations_frame_conditions
      ⟨[Op.create 1 "E" "V" "D" 7], rfl⟩ 0 rfl).1 (Op.lock 1 0)).1⟩
